import Mathlib

/-!
Verification of the matching/merge core of `jam_merger.py` (Jam Builder V2).

The Python source is shallowly embedded: strings are `List Char` (wrapped in
`String` at the interfaces), Python's stateful merge loop becomes explicit
state passing, and the external collaborators (audio codec, tag library,
filesystem) are abstracted as boolean outcome functions, exactly as the spec
treats them ("decode audio from path", "write tag fields"). Every definition
mirrors the corresponding Python function; line references point into
`src/jam_merger.py`.
-/

namespace JamMerger

set_option maxRecDepth 16000

/-- Python `str.lower` restricted to ASCII letters (the only characters the
titles, markers and artist names in this repository use): maps `A`..`Z`
(code points 65..90) to `a`..`z` and leaves everything else unchanged. -/
def pyLowerChar (c : Char) : Char :=
  if 65 ≤ c.toNat ∧ c.toNat ≤ 90 then Char.ofNat (c.toNat + 32) else c

/-- Python `str.lower` over a whole string (as a character list). -/
def pyLower (s : List Char) : List Char :=
  s.map pyLowerChar

/-- Python's regex class `\w` (word character) restricted to ASCII:
letters, digits and the underscore. -/
def isWordChar (c : Char) : Bool :=
  c.isAlphanum || c == '_'

/-- Python's regex class `\s` (whitespace) restricted to ASCII, by code point:
space (32), tab (9), newline (10), carriage return (13), vertical tab (11)
and form feed (12). -/
def isPySpace (c : Char) : Bool :=
  c.toNat == 32 || c.toNat == 9 || c.toNat == 10 || c.toNat == 13
    || c.toNat == 11 || c.toNat == 12

/-- Python `str.strip()` restricted to ASCII whitespace: drop leading and
trailing whitespace. -/
def pyStrip (l : List Char) : List Char :=
  ((l.dropWhile isPySpace).reverse.dropWhile isPySpace).reverse

/-- Auxiliary scanner for Python `str.replace(pat, rep)`: `skip` counts
pattern characters still to be consumed after a match was emitted
(the replacement text is not rescanned, matches do not overlap). -/
def pyReplaceAux (pat rep : List Char) : Nat → List Char → List Char
  | _, [] => []
  | skip + 1, _ :: rest => pyReplaceAux pat rep skip rest
  | 0, c :: rest =>
    if pat.isPrefixOf (c :: rest) then
      rep ++ pyReplaceAux pat rep (pat.length - 1) rest
    else
      c :: pyReplaceAux pat rep 0 rest

/-- Python `str.replace` for a non-empty pattern: left-to-right,
non-overlapping, the replacement is not rescanned. -/
def pyReplace (pat rep s : List Char) : List Char :=
  pyReplaceAux pat rep 0 s

/-- The characters kept by `re.sub(r"[^\w\s]", "", title)`. -/
def keepChar (c : Char) : Bool :=
  isWordChar c || isPySpace c

/-- The pattern of `title.replace("feeling", ...)` in `normalize_title`. -/
def feelingPat : List Char := ['f','e','e','l','i','n','g']

/-- The pattern of `title.replace("feelin", ...)` in `normalize_title`. -/
def feelinPat : List Char := ['f','e','e','l','i','n']

/-- The replacement text of both replaces in `normalize_title`:
`feelin` followed by an apostrophe. -/
def feelinRep : List Char := ['f','e','e','l','i','n','\'']

/-- Normalization of `MainWindow.normalize_title` (lines 393-399) on character
lists: lower-case, replace `feeling` and then `feelin` by `feelin` + apostrophe,
drop every character that is neither a word character nor whitespace, and
finally remove every space (only `U+0020`, exactly as `title.replace(" ", "")`). -/
def normalizeTitleL (s : List Char) : List Char :=
  ((pyReplace feelinPat feelinRep
      (pyReplace feelingPat feelinRep (pyLower s))).filter keepChar).filter
    (fun c => c != ' ')

/-- String-level wrapper of `MainWindow.normalize_title`. -/
def normalize_title (s : String) : String :=
  ⟨normalizeTitleL s.data⟩

example : normalize_title ("feelingg") = ("feeling") := by decide
example : normalize_title ("feeling") = ("feelin") := by decide
example : normalize_title ("Scarlet Begonias!") = ("scarletbegonias") := by decide

/-- Python's substring test `pat in s` on character lists. -/
def containsSub (pat : List Char) : List Char → Bool
  | [] => pat.isEmpty
  | c :: rest => pat.isPrefixOf (c :: rest) || containsSub pat rest

/-- Valid code points below the surrogate range round-trip through
`Char.ofNat`. -/
theorem toNat_ofNat_of_lt (n : Nat) (h : n < 55296) : (Char.ofNat n).toNat = n := by
  simp only [Char.ofNat]
  rw [dif_pos (Or.inl h)]
  rfl

/-- The result of `pyLowerChar` is never an upper-case ASCII letter. -/
theorem pyLowerChar_toNat_notUpper (c : Char) :
    ¬ (65 ≤ (pyLowerChar c).toNat ∧ (pyLowerChar c).toNat ≤ 90) := by
  unfold pyLowerChar
  by_cases h : 65 ≤ c.toNat ∧ c.toNat ≤ 90
  · rw [if_pos h, toNat_ofNat_of_lt _ (by omega)]
    omega
  · rw [if_neg h]
    exact h

/-- Lower-casing a character twice is the same as doing it once. -/
theorem pyLowerChar_idem (c : Char) : pyLowerChar (pyLowerChar c) = pyLowerChar c :=
  if_neg (pyLowerChar_toNat_notUpper c)

/-- Every character of a replaced string comes from the replacement text or
from the input. -/
theorem mem_pyReplaceAux {pat rep : List Char} {c : Char} :
    ∀ {skip : Nat} {s : List Char}, c ∈ pyReplaceAux pat rep skip s → c ∈ rep ∨ c ∈ s := by
  intro skip s
  induction s generalizing skip with
  | nil => intro h; simp [pyReplaceAux] at h
  | cons a rest ih =>
    intro h
    match skip with
    | k + 1 =>
      simp only [pyReplaceAux] at h
      rcases ih h with h1 | h2
      · exact Or.inl h1
      · exact Or.inr (List.mem_cons_of_mem _ h2)
    | 0 =>
      by_cases hp : pat.isPrefixOf (a :: rest)
      · rw [pyReplaceAux, if_pos hp] at h
        rcases List.mem_append.mp h with h1 | h2
        · exact Or.inl h1
        · rcases ih h2 with h3 | h4
          · exact Or.inl h3
          · exact Or.inr (List.mem_cons_of_mem _ h4)
      · rw [pyReplaceAux, if_neg hp] at h
        rcases List.mem_cons.mp h with h1 | h2
        · exact Or.inr (h1 ▸ List.mem_cons_self _ _)
        · rcases ih h2 with h3 | h4
          · exact Or.inl h3
          · exact Or.inr (List.mem_cons_of_mem _ h4)

/-- Replacing a pattern that does not occur leaves the string unchanged. -/
theorem pyReplace_eq_self_of_not_contains {pat rep : List Char} :
    ∀ {s : List Char}, containsSub pat s = false → pyReplace pat rep s = s := by
  intro s
  induction s with
  | nil => intro _; simp [pyReplace, pyReplaceAux]
  | cons a rest ih =>
    intro h
    rw [containsSub, Bool.or_eq_false_iff] at h
    rw [pyReplace, pyReplaceAux, if_neg (by simp [h.1])]
    exact congrArg (a :: ·) (ih h.2)

/-- When the replacement text and the pattern agree after filtering, the
replace step is invisible to the filter: filtering the scanner's output is
filtering what remains of the input. -/
theorem filter_pyReplaceAux_keep {pat rep : List Char} (hpat : pat ≠ [])
    (hfilter : rep.filter keepChar = pat.filter keepChar) :
    ∀ (skip : Nat) (s : List Char),
      (pyReplaceAux pat rep skip s).filter keepChar = (s.drop skip).filter keepChar := by
  intro skip s
  induction s generalizing skip with
  | nil => simp [pyReplaceAux]
  | cons a rest ih =>
    match skip with
    | k + 1 =>
      simpa only [pyReplaceAux, List.drop_succ_cons] using ih k
    | 0 =>
      by_cases hp : pat.isPrefixOf (a :: rest)
      · obtain ⟨t, ht⟩ := List.isPrefixOf_iff_prefix.mp hp
        have hdrop : rest.drop (pat.length - 1) = t := by
          have hd : (pat ++ t).drop pat.length = t := List.drop_left _ _
          rw [ht] at hd
          cases pat with
          | nil => exact absurd rfl hpat
          | cons p ps => simpa using hd
        rw [pyReplaceAux, if_pos hp, List.filter_append, ih, hdrop, List.drop_zero,
          ← ht, List.filter_append, hfilter]
      · rw [pyReplaceAux, if_neg hp, List.drop_zero]
        simp only [List.filter_cons]
        rw [ih 0, List.drop_zero]

/-- Mapping a function that fixes every element of a list is the identity. -/
theorem map_eq_self_of_fix {f : Char → Char} {l : List Char} (h : ∀ c ∈ l, f c = c) :
    l.map f = l := by
  rw [List.map_congr_left h]
  exact List.map_id' l

/-- Claim C3 counterexample: `normalize_title` is not idempotent. On input
`feelingg` the chained replaces produce `feelin` + two apostrophes + `g`,
which strips back to `feeling`; a second normalization pass rewrites that
`feeling` occurrence again and yields `feelin`. -/
theorem normalize_title_not_idempotent :
    normalize_title (normalize_title ("feelingg")) ≠ normalize_title ("feelingg") := by
  decide

/-- Claim C3 (amended): `normalize_title` is idempotent on every input whose
normalized form does not contain `feeling` as a substring; the chained
`feeling`/`feelin` replaces only insert apostrophes that the punctuation
strip removes again, so a second pass is the identity. -/
theorem normalize_title_idem_of_no_feeling (x : String)
    (h : containsSub feelingPat (normalize_title x).data = false) :
    normalize_title (normalize_title x) = normalize_title x := by
  have hdata : (normalize_title x).data = normalizeTitleL x.data := rfl
  rw [hdata] at h
  show (⟨normalizeTitleL (normalizeTitleL x.data)⟩ : String) = ⟨normalizeTitleL x.data⟩
  have hy : normalizeTitleL (normalizeTitleL x.data) = normalizeTitleL x.data := by
    have hkeep : ∀ c ∈ normalizeTitleL x.data, keepChar c = true := by
      intro c hc
      unfold normalizeTitleL at hc
      exact (List.mem_filter.mp (List.mem_filter.mp hc).1).2
    have hnospace : ∀ c ∈ normalizeTitleL x.data, (c != ' ') = true := by
      intro c hc
      unfold normalizeTitleL at hc
      exact (List.mem_filter.mp hc).2
    have hlower : ∀ c ∈ normalizeTitleL x.data, pyLowerChar c = c := by
      intro c hc
      unfold normalizeTitleL at hc
      have hz := (List.mem_filter.mp (List.mem_filter.mp hc).1).1
      have hrep : ∀ d ∈ feelinRep, pyLowerChar d = d := by decide
      rcases mem_pyReplaceAux hz with h1 | h2
      · exact hrep c h1
      · rcases mem_pyReplaceAux h2 with h3 | h4
        · exact hrep c h3
        · obtain ⟨c0, _, rfl⟩ := List.mem_map.mp h4
          exact pyLowerChar_idem c0
    conv_lhs => rw [normalizeTitleL]
    rw [show pyLower (normalizeTitleL x.data) = normalizeTitleL x.data from
        map_eq_self_of_fix hlower,
      pyReplace_eq_self_of_not_contains h, pyReplace,
      filter_pyReplaceAux_keep (by decide) (by decide) 0, List.drop_zero,
      List.filter_eq_self.mpr hkeep, List.filter_eq_self.mpr hnospace]
  rw [hy]

/-- Witness for the amended claim C3 at a concrete catalog title. -/
theorem normalize_title_idem_witness :
    containsSub feelingPat (normalize_title ("Scarlet Begonias")).data = false
      ∧ normalize_title (normalize_title ("Scarlet Begonias"))
          = normalize_title ("Scarlet Begonias") :=
  ⟨by decide, normalize_title_idem_of_no_feeling ("Scarlet Begonias") (by decide)⟩

/-- Characters at or above code point 65 are not Python whitespace. -/
theorem isPySpace_eq_false_of_ge (c : Char) (h : 65 ≤ c.toNat) : isPySpace c = false := by
  simp only [isPySpace, Bool.or_eq_false_iff, beq_eq_false_iff_ne, ne_eq]
  omega

/-- Lower-casing does not change whether a character is whitespace. -/
theorem isPySpace_pyLowerChar (c : Char) : isPySpace (pyLowerChar c) = isPySpace c := by
  unfold pyLowerChar
  by_cases h : 65 ≤ c.toNat ∧ c.toNat ≤ 90
  · rw [if_pos h]
    rw [isPySpace_eq_false_of_ge c h.1, isPySpace_eq_false_of_ge]
    rw [toNat_ofNat_of_lt _ (by omega)]
    omega
  · rw [if_neg h]

/-- Dropping leading whitespace commutes with lower-casing. -/
theorem dropWhile_isPySpace_pyLower (l : List Char) :
    (pyLower l).dropWhile isPySpace = pyLower (l.dropWhile isPySpace) := by
  unfold pyLower
  rw [List.dropWhile_map]
  rw [show (isPySpace ∘ pyLowerChar) = isPySpace from funext isPySpace_pyLowerChar]

/-- Python `strip` commutes with `lower`. -/
theorem pyStrip_pyLower (l : List Char) : pyStrip (pyLower l) = pyLower (pyStrip l) := by
  unfold pyStrip
  rw [dropWhile_isPySpace_pyLower]
  rw [show (pyLower (l.dropWhile isPySpace)).reverse
        = pyLower ((l.dropWhile isPySpace).reverse) from
      (List.map_reverse pyLowerChar (l.dropWhile isPySpace)).symm]
  rw [dropWhile_isPySpace_pyLower]
  exact (List.map_reverse pyLowerChar _).symm

/-- Tag block written by `MainWindow.export_merged_file` (lines 861-892): the
fields set on the exported FLAC or MP3 file. -/
structure TagBlock where
  title : String
  artist : String
  album : String
  date : String
  genre : String
  albumartist : String
  description : Option String
deriving DecidableEq

/-- Tag values computed by `MainWindow.export_merged_file` before writing
(lines 861-892): the title override (when given) or the title edit box, the
remaining edit-box values, the Grateful Dead override of lines 868-870
forcing genre and album artist, and the optional custom description (written
as `description` for FLAC and `comment` for MP3). -/
def computeWrittenTags (titleOverride : Option String)
    (titleEdit artistEdit albumEdit yearEdit genreEdit albumArtistEdit : String)
    (customDescriptionEnabled : Bool) (customDescription : String) : TagBlock :=
  let gd : Bool := pyLower (pyStrip artistEdit.data) == ("grateful dead").data
  { title := titleOverride.getD titleEdit
    artist := artistEdit
    album := albumEdit
    date := yearEdit
    genre := if gd then ("Rock") else genreEdit
    albumartist := if gd then ("Grateful Dead") else albumArtistEdit
    description :=
      if customDescriptionEnabled = true ∧ customDescription ≠ ("") then
        some customDescription
      else none }

/-- Claim C7: whenever the resolved artist string equals `Grateful Dead` up to
letter case, the written tag block has genre `Rock` and album artist
`Grateful Dead`, overriding any other resolved genre or album-artist value. -/
theorem written_tags_grateful_dead_override (titleOverride : Option String)
    (titleEdit artistEdit albumEdit yearEdit genreEdit albumArtistEdit : String)
    (descEnabled : Bool) (desc : String)
    (h : pyLower artistEdit.data = ("grateful dead").data) :
    (computeWrittenTags titleOverride titleEdit artistEdit albumEdit yearEdit
        genreEdit albumArtistEdit descEnabled desc).genre = ("Rock")
      ∧ (computeWrittenTags titleOverride titleEdit artistEdit albumEdit yearEdit
          genreEdit albumArtistEdit descEnabled desc).albumartist
        = ("Grateful Dead") := by
  have hcond : pyLower (pyStrip artistEdit.data) = ("grateful dead").data := by
    rw [← pyStrip_pyLower, h]
    decide
  constructor
  · show (if (pyLower (pyStrip artistEdit.data) == ("grateful dead").data) then ("Rock")
        else genreEdit) = ("Rock")
    rw [if_pos (by rw [hcond]; rfl)]
  · show (if (pyLower (pyStrip artistEdit.data) == ("grateful dead").data) then
          ("Grateful Dead")
        else albumArtistEdit) = ("Grateful Dead")
    rw [if_pos (by rw [hcond]; rfl)]

/-- Witness for claim C7: a mixed-case artist tag value forces the override. -/
theorem written_tags_grateful_dead_override_witness :
    pyLower ("GrAtEful DEAD").data = ("grateful dead").data
      ∧ (computeWrittenTags none ("t") ("GrAtEful DEAD") ("a") ("1977") ("Jazz") ("Someone")
          false ("")).genre = ("Rock")
      ∧ (computeWrittenTags none ("t") ("GrAtEful DEAD") ("a") ("1977") ("Jazz") ("Someone")
          false ("")).albumartist = ("Grateful Dead") := by
  refine ⟨by decide, ?_⟩
  exact written_tags_grateful_dead_override none ("t") ("GrAtEful DEAD") ("a") ("1977")
    ("Jazz") ("Someone") false ("") (by decide)

/-- Leading track-number strip of `extract_song_title` (line 402),
`re.sub` with pattern caret, optional group of digits and a dash, digits,
optional whitespace: the optional group takes the leading digit run and a
dash only when further digits follow the dash; otherwise the match is the
leading digit run plus any whitespace directly after it; with no leading
digit nothing matches and the string is unchanged. -/
def stripTrackPrefix (s : List Char) : List Char :=
  let d1 := (s.takeWhile Char.isDigit).length
  if d1 = 0 then s
  else
    match s.drop d1 with
    | '-' :: rest2 =>
      if (rest2.takeWhile Char.isDigit).length = 0 then
        '-' :: rest2
      else (rest2.dropWhile Char.isDigit).dropWhile isPySpace
    | rest => rest.dropWhile isPySpace

/-- Pre-cleaning of `extract_song_title` (lines 402-403): strip the
track-number prefix, replace `_` and then `-` by spaces (a single-character
`str.replace` is a character map), and strip surrounding whitespace. -/
def cleanTitle (raw : List Char) : List Char :=
  pyStrip (((stripTrackPrefix raw).map (fun c => if c == '_' then ' ' else c)).map
    (fun c => if c == '-' then ' ' else c))

example : cleanTitle ("03-Scarlet Begonias").data = ("Scarlet Begonias").data := by decide
example : cleanTitle ("05 Uncle_Johns-Band").data = ("Uncle Johns Band").data := by decide
example : cleanTitle ("12-04 Drums").data = ("Drums").data := by decide

/-- Lookup in a Python dict built by inserting the listed pairs in order:
the value of the last pair carrying the key. -/
def dictGet (l : List (List Char × List Char)) (k : List Char) : Option (List Char) :=
  (l.reverse.find? (fun p => p.1 == k)).map Prod.snd

/-- Auxiliary scanner for the key list of a Python dict: keys in first
occurrence order, duplicates collapsed. -/
def dedupFirstAux {α : Type} [BEq α] (seen : List α) : List α → List α
  | [] => []
  | k :: rest =>
    if seen.contains k then dedupFirstAux seen rest
    else k :: dedupFirstAux (k :: seen) rest

/-- Key list of a Python dict built by inserting the listed pairs in order. -/
def dictKeys (l : List (List Char × List Char)) : List (List Char) :=
  dedupFirstAux [] (l.map Prod.fst)

/-- Python's line `full, short = line.strip().split("=>", 1)`: split on the
first occurrence of the separator (`none` when it is absent). -/
def splitFirst (sep : List Char) : List Char → Option (List Char × List Char)
  | [] => none
  | c :: rest =>
    if sep.isPrefixOf (c :: rest) then some ([], (c :: rest).drop sep.length)
    else
      match splitFirst sep rest with
      | some (l, r) => some (c :: l, r)
      | none => none

/-- Embeds `MainWindow.load_shortname_map` (lines 379-391): each line that
contains the arrow separator contributes a pair of the lower-cased, stripped
full title and the stripped short form; the containment test on the raw line
is equivalent to splitting the stripped line, since stripping removes only
whitespace. -/
def load_shortname_map (lines : List String) : List (List Char × List Char) :=
  lines.filterMap (fun line =>
    match splitFirst ['=','>'] (pyStrip line.data) with
    | some (full, short) => some (pyLower (pyStrip full), pyStrip short)
    | none => none)

example : load_shortname_map [("Scarlet Begonias=>Scarlet")]
    = [(("scarlet begonias").data, ("Scarlet").data)] := by decide

/-- Length of the longest common run of equal characters ending exactly at
positions `i` of `a` and `j` of `b` and staying at or above `alo`/`blo`: the
value difflib's `j2len` dynamic programming in `find_longest_match`
associates with the pair `(i, j)`. -/
def cslen (a b : List Char) (alo blo : Nat) : Nat → Nat → Nat
  | 0, j =>
    if 0 < alo || j < blo then 0
    else
      match a[0]?, b[j]? with
      | some ca, some cb => if ca == cb then 1 else 0
      | _, _ => 0
  | i + 1, j =>
    if i + 1 < alo || j < blo then 0
    else
      match a[i+1]?, b[j]? with
      | some ca, some cb =>
        if ca == cb then
          match j with
          | 0 => 1
          | j1 + 1 => cslen a b alo blo i j1 + 1
        else 0
      | _, _ => 0

/-- The scanning loop of difflib `find_longest_match` over the window
`[alo, ahi) x [blo, bhi)`: `i` ascending, `j` ascending, keeping the first
strictly longer match (difflib restricts `j` to positions where the
characters agree, which is exactly where the run length is positive). -/
def scanBest (a b : List Char) (alo ahi blo bhi : Nat) : Nat × Nat × Nat :=
  ((List.range' alo (ahi - alo)).flatMap
      (fun i => (List.range' blo (bhi - blo)).map (fun j => (i, j)))).foldl
    (fun best ij =>
      let k := cslen a b alo blo ij.1 ij.2
      if best.2.2 < k then (ij.1 + 1 - k, ij.2 + 1 - k, k) else best)
    (alo, blo, 0)

/-- Whether positions `i` of `a` and `j` of `b` hold equal characters. -/
def chEq (a b : List Char) (i j : Nat) : Bool :=
  match a[i]?, b[j]? with
  | some x, some y => x == y
  | _, _ => false

/-- The backward extension loop of `find_longest_match` (with the junk set
empty, as it is for the short strings the matcher compares). -/
def extendBack (a b : List Char) (alo blo : Nat) : Nat → Nat × Nat × Nat → Nat × Nat × Nat
  | 0, best => best
  | fuel + 1, (bi, bj, bs) =>
    if alo < bi && blo < bj && chEq a b (bi - 1) (bj - 1) then
      extendBack a b alo blo fuel (bi - 1, bj - 1, bs + 1)
    else (bi, bj, bs)

/-- The forward extension loop of `find_longest_match` (junk set empty). -/
def extendFwd (a b : List Char) (ahi bhi : Nat) : Nat → Nat × Nat × Nat → Nat × Nat × Nat
  | 0, best => best
  | fuel + 1, (bi, bj, bs) =>
    if bi + bs < ahi && bj + bs < bhi && chEq a b (bi + bs) (bj + bs) then
      extendFwd a b ahi bhi fuel (bi, bj, bs + 1)
    else (bi, bj, bs)

/-- difflib `SequenceMatcher.find_longest_match` over the given window:
the scan, then the two extension loops. -/
def findLongest (a b : List Char) (alo ahi blo bhi : Nat) : Nat × Nat × Nat :=
  extendFwd a b ahi bhi ahi (extendBack a b alo blo ahi (scanBest a b alo ahi blo bhi))

/-- Total size of difflib's matching blocks over a window: the recursive
split of `get_matching_blocks` around each longest match. The first argument
is recursion fuel; every level shrinks the window, so any fuel beyond the
window width is enough, and `matchSizeTop` below supplies it. -/
def matchSize (a b : List Char) : Nat → Nat → Nat → Nat → Nat → Nat
  | 0, _, _, _, _ => 0
  | fuel + 1, alo, ahi, blo, bhi =>
    let r := findLongest a b alo ahi blo bhi
    if r.2.2 = 0 then 0
    else
      r.2.2 + matchSize a b fuel alo r.1 blo r.2.1
        + matchSize a b fuel (r.1 + r.2.2) ahi (r.2.1 + r.2.2) bhi

/-- The number `M` of matching characters of `SequenceMatcher(a, b)`. -/
def matchSizeTop (a b : List Char) : Nat :=
  matchSize a b (a.length + b.length + 1) 0 a.length 0 b.length

example : matchSizeTop ("scarletbegonias").data ("scarletbegonia").data = 14 := by decide
example : matchSizeTop ("abxcd").data ("abycd").data = 4 := by decide
example : matchSizeTop ("dancin").data ("dancing").data = 6 := by decide
example : matchSizeTop ("qqabcqq").data ("zzabczz").data = 3 := by decide
example : matchSizeTop ("aba").data ("baab").data = 2 := by decide

/-- difflib `SequenceMatcher.ratio`: twice the matching size over the total
length (1 for two empty sequences), as an exact rational. The Python float
comparison with 0.6 agrees with the exact rational one for the short strings
compared here, whose ratios cannot fall within one ulp of 3/5 without being
exactly 3/5. -/
def seqRatio (a b : List Char) : ℚ :=
  if a.length + b.length = 0 then 1
  else (2 * matchSizeTop a b : ℚ) / (a.length + b.length)

/-- The comparison `ratio() >= 0.6` in cross-multiplied form (two empty
sequences give ratio 1): `2M/T` is at least `3/5` exactly when `3T` is at
most `10M`. `seqRatioGe35_iff` below ties this to `seqRatio`. -/
def seqRatioGe35 (x w : List Char) : Bool :=
  decide (x.length + w.length = 0)
    || decide (3 * (x.length + w.length) ≤ 10 * matchSizeTop x w)

/-- The comparison `real_quick_ratio() >= 0.6` in cross-multiplied form:
difflib bounds the ratio by `2 * min(la, lb) / T`. -/
def realQuickGe35 (x w : List Char) : Bool :=
  decide (x.length + w.length = 0)
    || decide (3 * (x.length + w.length) ≤ 10 * min x.length w.length)

/-- The multiset intersection size behind difflib `quick_ratio`. -/
def multisetCommon (a b : List Char) : Nat :=
  (dedupFirstAux [] a).foldl (fun acc c => acc + min (a.count c) (b.count c)) 0

/-- The comparison `quick_ratio() >= 0.6` in cross-multiplied form: difflib
bounds the ratio by twice the multiset intersection size over `T`. -/
def quickGe35 (x w : List Char) : Bool :=
  decide (x.length + w.length = 0)
    || decide (3 * (x.length + w.length) ≤ 10 * multisetCommon x w)

/-- The filter of difflib `get_close_matches` at cutoff 0.6: the candidate
`x` is `seq1`, the word is `seq2`, and all three ratio tiers must reach the
cutoff. -/
def passesCutoff (word x : List Char) : Bool :=
  realQuickGe35 x word && quickGe35 x word && seqRatioGe35 x word

/-- Python string `<`: lexicographic by code point, a proper prefix is
smaller. -/
def lexLt : List Char → List Char → Bool
  | [], [] => false
  | [], _ :: _ => true
  | _ :: _, [] => false
  | c :: cs, d :: ds => if c < d then true else if d < c then false else lexLt cs ds

/-- The score difflib pairs with a candidate, as numerator and denominator
(two empty sequences score 1). -/
def scorePair (x w : List Char) : Nat × Nat :=
  if x.length + w.length = 0 then (1, 1)
  else (2 * matchSizeTop x w, x.length + w.length)

/-- Score comparison `score b < score c` in cross-multiplied form. -/
def scoreLtB (w b c : List Char) : Bool :=
  (scorePair b w).1 * (scorePair c w).2 < (scorePair c w).1 * (scorePair b w).2

/-- Score equality in cross-multiplied form. -/
def scoreEqB (w b c : List Char) : Bool :=
  (scorePair b w).1 * (scorePair c w).2 == (scorePair c w).1 * (scorePair b w).2

/-- The selection of `heapq.nlargest(1, ...)` over score-and-string pairs:
the maximum by score, ties broken towards the larger string, the earlier
candidate kept on exact ties. -/
def pickBest (word : List Char) : List Char → List (List Char) → List Char
  | best, [] => best
  | best, c :: cs =>
    if scoreLtB word best c || (scoreEqB word best c && lexLt best c) then
      pickBest word c cs
    else pickBest word best cs

/-- difflib `get_close_matches(word, keys, n=1, cutoff=0.6)`: filter the
candidates through the three ratio tiers, then return the single best by
score (empty when nothing passes). -/
def getCloseMatches1 (word : List Char) (keys : List (List Char)) : List (List Char) :=
  match keys.filter (passesCutoff word) with
  | [] => []
  | c :: cs => [pickBest word c cs]

/-- The normalized-to-canonical song dictionary of line 406. -/
def normSongMap (songList : List (List Char)) : List (List Char × List Char) :=
  songList.map (fun song => (normalizeTitleL song, song))

/-- The normalized short-name dictionary of line 407. -/
def normShortnameMap (shortMap : List (List Char × List Char)) :
    List (List Char × List Char) :=
  shortMap.map (fun p => (normalizeTitleL p.1, p.2))

/-- The short-name substitution of lines 411-415 and 420-425: when short
names are enabled and the matched title's normalized form is a key of the
short-name map, the short form; otherwise the canonical title. -/
def applyShortname (shortMap : List (List Char × List Char)) (enabled : Bool)
    (fullTitle : List Char) : List Char :=
  if enabled then
    match dictGet (normShortnameMap shortMap) (normalizeTitleL fullTitle) with
    | some s => s
    | none => fullTitle
  else fullTitle

/-- Embeds `MainWindow.extract_song_title` (lines 401-427): pre-clean,
normalize, exact lookup in the normalized song dictionary, else fuzzy
closest-match over its keys, else the cleaned string. The indexing
`norm_song_map[matched_key]` cannot fail in Python because the matched key is
drawn from the dictionary; the unreachable `none` branch returns the cleaned
string. -/
def extract_song_title (songList : List (List Char))
    (shortMap : List (List Char × List Char)) (shortnamesEnabled : Bool)
    (raw : List Char) : List Char :=
  let cleaned := cleanTitle raw
  let cleanedNorm := normalizeTitleL cleaned
  match dictGet (normSongMap songList) cleanedNorm with
  | some fullTitle => applyShortname shortMap shortnamesEnabled fullTitle
  | none =>
    match getCloseMatches1 cleanedNorm (dictKeys (normSongMap songList)) with
    | matchedKey :: _ =>
      match dictGet (normSongMap songList) matchedKey with
      | some fullTitle => applyShortname shortMap shortnamesEnabled fullTitle
      | none => cleaned
    | [] => cleaned

example : extract_song_title [("Scarlet Begonias").data] [] false
    ("03-Scarlet Begonias").data = ("Scarlet Begonias").data := by decide

example : extract_song_title [("Scarlet Begonias").data] [] false
    ("03-Scarlet Begonia").data = ("Scarlet Begonias").data := by decide

example : extract_song_title [("Scarlet Begonias").data] [] false
    ("zzqqxx").data = ("zzqqxx").data := by decide

/-- The cross-multiplied cutoff test agrees with the exact rational
similarity ratio: `seqRatioGe35` holds exactly when the ratio reaches 3/5. -/
theorem seqRatioGe35_iff (x w : List Char) :
    seqRatioGe35 x w = true ↔ (3 : ℚ)/5 ≤ seqRatio x w := by
  unfold seqRatioGe35 seqRatio
  by_cases h : x.length + w.length = 0
  · simp only [h, decide_True, Bool.true_or, if_pos h]
    norm_num
  · have hpos : (0 : ℚ) < ((x.length : ℚ) + (w.length : ℚ)) := by
      have hp : 0 < x.length + w.length := Nat.pos_of_ne_zero h
      exact_mod_cast hp
    rw [if_neg h]
    simp only [h, decide_False, Bool.false_or, decide_eq_true_eq]
    rw [div_le_div_iff₀ (by norm_num) hpos]
    constructor
    · intro hh
      have hq : ((3 * (x.length + w.length) : Nat) : ℚ)
          ≤ ((10 * matchSizeTop x w : Nat) : ℚ) := Nat.cast_le.mpr hh
      push_cast at hq
      linarith
    · intro hh
      have hq : ((3 * (x.length + w.length) : Nat) : ℚ)
          ≤ ((10 * matchSizeTop x w : Nat) : ℚ) := by
        push_cast
        linarith
      exact_mod_cast hq

/-- The candidate selected by the best-score fold is one of the candidates. -/
theorem pickBest_mem (word : List Char) :
    ∀ (cs : List (List Char)) (best : List Char), pickBest word best cs ∈ best :: cs := by
  intro cs
  induction cs with
  | nil => intro best; simp [pickBest]
  | cons c cs ih =>
    intro best
    rw [pickBest]
    split
    · exact List.mem_cons_of_mem _ (ih c)
    · rcases List.mem_cons.mp (ih best) with h | h
      · rw [h]
        exact List.mem_cons_self _ _
      · exact List.mem_cons_of_mem _ (List.mem_cons_of_mem _ h)

/-- Claim C5: the song matcher is total (it is a function into strings) and
never returns a fuzzy match below the 0.6 similarity floor. First part: the
cross-multiplied cutoff test means similarity ratio at least 3/5. Second
part: every candidate the closest-match lookup returns reaches the cutoff.
Third part: when the normalized input is no key of the catalog map and every
catalog key scores below the floor, the matcher returns the pre-cleaned,
non-normalized string unchanged. -/
theorem extract_song_title_fuzzy_floor :
    (∀ x w : List Char, seqRatioGe35 x w = true ↔ (3 : ℚ)/5 ≤ seqRatio x w)
      ∧ (∀ (word : List Char) (keys : List (List Char)) (m : List Char),
          m ∈ getCloseMatches1 word keys → seqRatioGe35 m word = true)
      ∧ ∀ (songList : List (List Char)) (shortMap : List (List Char × List Char))
          (enabled : Bool) (raw : List Char),
          dictGet (normSongMap songList) (normalizeTitleL (cleanTitle raw)) = none →
          (∀ k ∈ dictKeys (normSongMap songList),
            seqRatioGe35 k (normalizeTitleL (cleanTitle raw)) = false) →
          extract_song_title songList shortMap enabled raw = cleanTitle raw := by
  refine ⟨seqRatioGe35_iff, ?_, ?_⟩
  · intro word keys m hm
    unfold getCloseMatches1 at hm
    rcases hfil : keys.filter (passesCutoff word) with _ | ⟨c, cs⟩
    · rw [hfil] at hm
      simp at hm
    · rw [hfil] at hm
      simp only [List.mem_singleton] at hm
      subst hm
      have hmem : pickBest word c cs ∈ keys.filter (passesCutoff word) := by
        rw [hfil]
        exact pickBest_mem word cs c
      have hpass := List.of_mem_filter hmem
      unfold passesCutoff at hpass
      simp only [Bool.and_eq_true] at hpass
      exact hpass.2
  · intro songList shortMap enabled raw hnone hbelow
    simp only [extract_song_title]
    rw [hnone]
    have hfil : (dictKeys (normSongMap songList)).filter
        (passesCutoff (normalizeTitleL (cleanTitle raw))) = [] := by
      rw [List.filter_eq_nil_iff]
      intro k hk
      unfold passesCutoff
      rw [hbelow k hk]
      simp
    unfold getCloseMatches1
    rw [hfil]

/-- Witness for claim C5: an input with zero catalog overlap comes back as
the cleaned fragment. -/
theorem extract_song_title_fuzzy_floor_witness :
    extract_song_title [("Scarlet Begonias").data] [] false ("zzqqxx").data
      = cleanTitle ("zzqqxx").data :=
  extract_song_title_fuzzy_floor.2.2 [("Scarlet Begonias").data] [] false
    ("zzqqxx").data (by decide) (by decide)

/-- Claim C6: whenever the matcher resolves the input to a catalog title,
exactly through the normalized dictionary or fuzzily through the
closest-match lookup, it returns the configured short name when short names
are enabled and the matched title's normalized form is a key of the
short-name map, and the canonical catalog title otherwise. -/
theorem extract_song_title_shortname (songList : List (List Char))
    (shortMap : List (List Char × List Char)) (enabled : Bool) (raw : List Char)
    (fullTitle : List Char)
    (hmatch :
      dictGet (normSongMap songList) (normalizeTitleL (cleanTitle raw)) = some fullTitle
        ∨ (dictGet (normSongMap songList) (normalizeTitleL (cleanTitle raw)) = none
            ∧ ∃ matchedKey rest,
                getCloseMatches1 (normalizeTitleL (cleanTitle raw))
                    (dictKeys (normSongMap songList)) = matchedKey :: rest
                  ∧ dictGet (normSongMap songList) matchedKey = some fullTitle)) :
    (∀ s, enabled = true →
        dictGet (normShortnameMap shortMap) (normalizeTitleL fullTitle) = some s →
        extract_song_title songList shortMap enabled raw = s)
      ∧ (enabled = false → extract_song_title songList shortMap enabled raw = fullTitle)
      ∧ (dictGet (normShortnameMap shortMap) (normalizeTitleL fullTitle) = none →
          extract_song_title songList shortMap enabled raw = fullTitle) := by
  have hred : extract_song_title songList shortMap enabled raw
      = applyShortname shortMap enabled fullTitle := by
    simp only [extract_song_title]
    rcases hmatch with he | ⟨hn, mk, rest, hg, hd⟩
    · simp only [he]
    · simp only [hn, hg, hd]
  refine ⟨?_, ?_, ?_⟩
  · intro s hen hsome
    rw [hred]
    simp [applyShortname, hen, hsome]
  · intro hen
    rw [hred]
    simp [applyShortname, hen]
  · intro hnone
    rw [hred]
    simp [applyShortname, hnone]

/-- Witness for claim C6: with catalog entry Scarlet Begonias, the loaded
short-name line mapping it to Scarlet, and short names enabled, the input
`03-Scarlet Begonias` returns `Scarlet`. -/
theorem extract_song_title_shortname_witness :
    extract_song_title [("Scarlet Begonias").data]
        (load_shortname_map [("Scarlet Begonias=>Scarlet")]) true
        ("03-Scarlet Begonias").data = ("Scarlet").data :=
  (extract_song_title_shortname [("Scarlet Begonias").data]
      (load_shortname_map [("Scarlet Begonias=>Scarlet")]) true
      ("03-Scarlet Begonias").data (("Scarlet Begonias").data)
      (Or.inl (by decide))).1 (("Scarlet").data) rfl (by decide)

/-- The date separators of `extract_date_from_string` (line 584): dash,
underscore, dot. -/
def isSepChar (c : Char) : Bool :=
  c == '-' || c == '_' || c == '.'

/-- One attempt of the date regex at the start of the string: four digits, a
separator, two digits, a separator, two digits (the quantifiers are fixed
length, so the regex engine backtracks nothing). -/
def matchDateAt (s : List Char) : Option (List Char × List Char × List Char) :=
  match s with
  | y1 :: y2 :: y3 :: y4 :: s1 :: m1 :: m2 :: s2 :: d1 :: d2 :: _ =>
    if y1.isDigit && y2.isDigit && y3.isDigit && y4.isDigit
        && isSepChar s1 && m1.isDigit && m2.isDigit
        && isSepChar s2 && d1.isDigit && d2.isDigit then
      some ([y1, y2, y3, y4], [m1, m2], [d1, d2])
    else none
  | _ => none

/-- Python `re.search` for the date pattern: try every start position from
the left and return the groups of the first match
(`extract_date_from_string`, lines 583-587). -/
def searchDate : List Char → Option (List Char × List Char × List Char)
  | [] => none
  | c :: rest =>
    match matchDateAt (c :: rest) with
    | some g => some g
    | none => searchDate rest

/-- The dash-joined date string `extract_date_from_string` builds from the
three groups. -/
def fmtGroups (g : List Char × List Char × List Char) : List Char :=
  g.1 ++ '-' :: g.2.1 ++ '-' :: g.2.2

/-- The metadata-date regex of line 608, `re.match` anchored at the start:
four digits, then optionally separator, two digits, separator, two digits;
when the optional group fails the month and day default to `01`. Returns the
formatted date string. -/
def matchMetaDate (s : List Char) : Option (List Char) :=
  match s with
  | y1 :: y2 :: y3 :: y4 :: rest =>
    if y1.isDigit && y2.isDigit && y3.isDigit && y4.isDigit then
      some ([y1, y2, y3, y4] ++ '-' ::
        (match rest with
         | s1 :: m1 :: m2 :: s2 :: d1 :: d2 :: _ =>
           if isSepChar s1 && m1.isDigit && m2.isDigit && isSepChar s2
               && d1.isDigit && d2.isDigit then
             [m1, m2] ++ '-' :: [d1, d2]
           else ['0', '1'] ++ '-' :: ['0', '1']
         | _ => ['0', '1'] ++ '-' :: ['0', '1']))
    else none
  | _ => none

/-- One decimal digit character (of the lowest decimal digit of `n`). -/
def digitChar (n : Nat) : Char :=
  match n % 10 with
  | 0 => '0'
  | 1 => '1'
  | 2 => '2'
  | 3 => '3'
  | 4 => '4'
  | 5 => '5'
  | 6 => '6'
  | 7 => '7'
  | 8 => '8'
  | _ => '9'

/-- The `strftime` rendering pattern of line 616 for a year, month and day:
four digits, dash, two digits, dash, two digits (faithful to Python for the
four-digit-year era every file timestamp lives in). -/
def fmtYMD (ymd : Nat × Nat × Nat) : List Char :=
  [digitChar (ymd.1 / 1000), digitChar (ymd.1 / 100), digitChar (ymd.1 / 10),
      digitChar ymd.1]
    ++ '-' :: [digitChar (ymd.2.1 / 10), digitChar ymd.2.1]
    ++ '-' :: [digitChar (ymd.2.2 / 10), digitChar ymd.2.2]

/-- Embeds `MainWindow.extract_date_for_filename` (lines 582-617). The
filesystem and tag collaborators are abstracted: `parentDir` and `fileName`
are the parent-directory and base names of the first file, `metadataDate` is
the date or year tag read from the embedded audio metadata (absent when the
tag is missing, empty, or unreadable), and `mtime` is the file's
last-modified timestamp as a year, month and day. The four sources are
consulted in that order and the first success wins. -/
def extract_date_for_filename (parentDir fileName : String)
    (metadataDate : Option String) (mtime : Nat × Nat × Nat) : String :=
  match searchDate parentDir.data with
  | some g => ⟨fmtGroups g⟩
  | none =>
    match searchDate fileName.data with
    | some g => ⟨fmtGroups g⟩
    | none =>
      match metadataDate with
      | some md =>
        if md.data ≠ [] then
          match matchMetaDate md.data with
          | some ds => ⟨ds⟩
          | none => ⟨fmtYMD mtime⟩
        else ⟨fmtYMD mtime⟩
      | none => ⟨fmtYMD mtime⟩

example : extract_date_for_filename ("1977-05-08") ("d1t01.flac") (some ("1990"))
    (2020, 1, 2) = ("1977-05-08") := by decide
example : extract_date_for_filename ("gd77") ("gd1977_05_08d1t01.flac") none
    (2020, 1, 2) = ("1977-05-08") := by decide
example : extract_date_for_filename ("gd") ("d1t01.flac") (some ("1977"))
    (2020, 1, 2) = ("1977-01-01") := by decide
example : extract_date_for_filename ("gd") ("d1t01.flac") none
    (2020, 1, 2) = ("2020-01-02") := by decide

/-- The shape `YYYY-MM-DD`: ten characters, digits with dashes at positions
four and seven. -/
def dateShape (s : String) : Bool :=
  match s.data with
  | [a, b, c, d, e, f, g, h, i, j] =>
    a.isDigit && b.isDigit && c.isDigit && d.isDigit && e == '-'
      && f.isDigit && g.isDigit && h == '-' && i.isDigit && j.isDigit
  | _ => false

/-- A digit character really is a digit. -/
theorem digitChar_isDigit (n : Nat) : (digitChar n).isDigit = true := by
  unfold digitChar
  split <;> decide

/-- The timestamp rendering always has the `YYYY-MM-DD` shape. -/
theorem dateShape_fmtYMD (ymd : Nat × Nat × Nat) : dateShape ⟨fmtYMD ymd⟩ = true := by
  unfold dateShape fmtYMD
  simp [digitChar_isDigit]

/-- The groups a successful date match returns are digit runs of lengths
four, two and two. -/
theorem matchDateAt_shape {s : List Char} {g : List Char × List Char × List Char}
    (h : matchDateAt s = some g) : dateShape ⟨fmtGroups g⟩ = true := by
  unfold matchDateAt at h
  split at h
  · rename_i y1 y2 y3 y4 s1 m1 m2 s2 d1 d2 rest
    split at h
    · rename_i hcond
      simp only [Option.some.injEq] at h
      subst h
      simp only [Bool.and_eq_true] at hcond
      unfold dateShape fmtGroups
      simp only [List.cons_append, List.nil_append]
      simp [hcond.1.1.1.1.1.1.1.1.1, hcond.1.1.1.1.1.1.1.1.2, hcond.1.1.1.1.1.1.1.2,
        hcond.1.1.1.1.1.1.2, hcond.1.1.1.1.2, hcond.1.1.1.2, hcond.1.2, hcond.2]
    · exact absurd h (by simp)
  · exact absurd h (by simp)

/-- A successful search returns groups of the matching shape. -/
theorem searchDate_shape {s : List Char} {g : List Char × List Char × List Char}
    (h : searchDate s = some g) : dateShape ⟨fmtGroups g⟩ = true := by
  induction s with
  | nil => exact absurd h (by simp [searchDate])
  | cons c rest ih =>
    rw [searchDate] at h
    rcases hm : matchDateAt (c :: rest) with _ | g2
    · rw [hm] at h
      exact ih h
    · rw [hm] at h
      simp only [Option.some.injEq] at h
      subst h
      exact matchDateAt_shape hm

/-- A successful metadata match yields the `YYYY-MM-DD` shape. -/
theorem matchMetaDate_shape {s : List Char} {ds : List Char}
    (h : matchMetaDate s = some ds) : dateShape ⟨ds⟩ = true := by
  unfold matchMetaDate at h
  split at h
  · rename_i y1 y2 y3 y4 rest
    split at h
    · rename_i hy
      simp only [Option.some.injEq] at h
      subst h
      simp only [Bool.and_eq_true] at hy
      split
      · rename_i s1 m1 m2 s2 d1 d2 tail
        split
        · rename_i hcond
          simp only [Bool.and_eq_true] at hcond
          unfold dateShape
          simp only [List.cons_append, List.nil_append]
          simp [hy.1.1.1, hy.1.1.2, hy.1.2, hy.2, hcond.1.1.1.1.2, hcond.1.1.1.2,
            hcond.1.2, hcond.2]
        · unfold dateShape
          simp only [List.cons_append, List.nil_append]
          simp [hy.1.1.1, hy.1.1.2, hy.1.2, hy.2]
      · unfold dateShape
        simp only [List.cons_append, List.nil_append]
        simp [hy.1.1.1, hy.1.1.2, hy.1.2, hy.2]
    · exact absurd h (by simp)
  · exact absurd h (by simp)

/-- Claim C4: the date resolver returns a `YYYY-MM-DD`-shaped string taken
from the first succeeding source in the fixed order parent-directory name,
file base name, metadata tag (bare year or full date, month and day
defaulting to `01`), last-modified timestamp; once a source succeeds, later
sources are not consulted. -/
theorem extract_date_priority :
    (∀ (pd fn : String) (md : Option String) (mt : Nat × Nat × Nat) g,
        searchDate pd.data = some g →
        extract_date_for_filename pd fn md mt = ⟨fmtGroups g⟩)
      ∧ (∀ (pd fn : String) (md : Option String) (mt : Nat × Nat × Nat) g,
          searchDate pd.data = none → searchDate fn.data = some g →
          extract_date_for_filename pd fn md mt = ⟨fmtGroups g⟩)
      ∧ (∀ (pd fn : String) (m : String) (mt : Nat × Nat × Nat) ds,
          searchDate pd.data = none → searchDate fn.data = none →
          m.data ≠ [] → matchMetaDate m.data = some ds →
          extract_date_for_filename pd fn (some m) mt = ⟨ds⟩)
      ∧ (∀ (pd fn : String) (md : Option String) (mt : Nat × Nat × Nat),
          searchDate pd.data = none → searchDate fn.data = none →
          (md = none ∨ ∀ m, md = some m → m.data = [] ∨ matchMetaDate m.data = none) →
          extract_date_for_filename pd fn md mt = ⟨fmtYMD mt⟩)
      ∧ ∀ (pd fn : String) (md : Option String) (mt : Nat × Nat × Nat),
          dateShape (extract_date_for_filename pd fn md mt) = true := by
  refine ⟨?_, ?_, ?_, ?_, ?_⟩
  · intro pd fn md mt g h
    unfold extract_date_for_filename
    rw [h]
  · intro pd fn md mt g h1 h2
    unfold extract_date_for_filename
    rw [h1, h2]
  · intro pd fn m mt ds h1 h2 h3 h4
    unfold extract_date_for_filename
    rw [h1, h2]
    simp only [h3, if_true]
    rw [if_pos h3, h4]
  · intro pd fn md mt h1 h2 h3
    unfold extract_date_for_filename
    rw [h1, h2]
    rcases h3 with rfl | hm
    · rfl
    · rcases md with _ | m
      · rfl
      · rcases hm m rfl with he | hn
        · simp [he]
        · rcases hd : decide (m.data ≠ []) with _ | _
          · simp at hd
            simp [hd]
          · simp only [ne_eq, decide_not, Bool.not_eq_true', decide_eq_false_iff_not,
              Decidable.not_not] at hd
            simp [hd, hn]
  · intro pd fn md mt
    unfold extract_date_for_filename
    rcases h1 : searchDate pd.data with _ | g
    · rcases h2 : searchDate fn.data with _ | g
      · rcases md with _ | m
        · exact dateShape_fmtYMD mt
        · rcases he : decide (m.data = []) with _ | _
          · simp only [decide_eq_false_iff_not] at he
            simp only [ne_eq, he, not_false_eq_true, if_true]
            rcases h4 : matchMetaDate m.data with _ | ds
            · exact dateShape_fmtYMD mt
            · exact matchMetaDate_shape h4
          · simp only [decide_eq_true_eq] at he
            simp [he, dateShape_fmtYMD mt]
      · exact searchDate_shape h2
    · exact searchDate_shape h1

/-- Witness for claim C4: the folder name `1977-05-08` wins over a
conflicting metadata tag date. -/
theorem extract_date_priority_witness :
    extract_date_for_filename ("1977-05-08") ("d1t01.flac") (some ("1990-01-01"))
        (2020, 1, 2)
      = ("1977-05-08") := by
  rw [extract_date_priority.1 ("1977-05-08") ("d1t01.flac") (some ("1990-01-01"))
    (2020, 1, 2) ((['1','9','7','7'], ['0','5'], ['0','8'])) (by decide)]
  decide

/-- The leading digit run of a base name, Python `re.match` of caret and a
digit group (lines 664-667): `none` when the name does not start with a
digit. -/
def leadingDigits (s : List Char) : Option (List Char) :=
  match s.takeWhile Char.isDigit with
  | [] => none
  | d :: ds => some (d :: ds)

/-- Python `int` on a digit string. -/
def natOfDigits (ds : List Char) : Nat :=
  ds.foldl (fun n c => 10 * n + (c.toNat - 48)) 0

/-- The per-file track number of `is_track_order_suspicious` (lines 646-668):
the tag's track-number string when present and non-empty, else the leading
digit run of the base name; converted with `int` when the chosen string is
non-empty and all digits (`str.isdigit`), `None` otherwise. The tag layer is
abstracted as the optional string it yields. -/
def parsedTrackNumber (tagNum : Option String) (basename : String) : Option Nat :=
  let num : Option (List Char) :=
    match tagNum with
    | some s => if s.data = [] then leadingDigits basename.data else some s.data
    | none => leadingDigits basename.data
  match num with
  | some ds => if ds ≠ [] ∧ ds.all Char.isDigit then some (natOfDigits ds) else none
  | none => none

/-- Embeds `MainWindow.is_track_order_suspicious` (lines 642-679) over the
list of per-file (tag track-number, base name) pairs: flag when the parsed
track numbers (at least two of them) differ from their sorted order, or when
the base names (at least two files) differ from their lexicographically
sorted order. The `titles` list the Python code builds has one entry per
file and only its length is used; Python's stable `sorted` and
`insertionSort` return the same value sequence, since equal values are
indistinguishable. -/
def is_track_order_suspicious (files : List (Option String × String)) : Bool :=
  let trackNums : List Nat := files.filterMap (fun f => parsedTrackNumber f.1 f.2)
  let names : List (List Char) := files.map (fun f => f.2.data)
  (decide (2 ≤ trackNums.length)
      && decide (trackNums ≠ trackNums.insertionSort (· ≤ ·)))
    || (decide (2 ≤ files.length) && decide (names ≠ names.insertionSort (· ≤ ·)))

example : is_track_order_suspicious
    [(some ("2"), ("b.flac")), (some ("1"), ("a.flac")), (some ("3"), ("c.flac"))]
    = true := by decide
example : is_track_order_suspicious
    [(some ("1"), ("a.flac")), (some ("2"), ("b.flac")), (some ("3"), ("c.flac"))]
    = false := by decide
example : is_track_order_suspicious
    [(some ("x"), ("a.flac")), (some ("2"), ("b.flac")), (some ("3"), ("c.flac"))]
    = false := by decide

/-- A list differs from its insertion sort exactly when it is not sorted. -/
theorem ne_insertionSort_iff {α : Type} [LinearOrder α] (l : List α) :
    (l ≠ l.insertionSort (· ≤ ·)) ↔ ¬ l.Sorted (· ≤ ·) := by
  constructor
  · intro h hs
    exact h hs.insertionSort_eq.symm
  · intro h hc
    apply h
    rw [hc]
    exact List.sorted_insertionSort (· ≤ ·) l

/-- Claim C8: the track-order checker returns true exactly when (a) the
subsequence of parsed track numbers has at least two entries and is not
sorted in non-decreasing order, or (b) there are at least two files and the
base-name list is not sorted in non-decreasing lexicographic order. In
particular parsed numbers 2, 1, 3 are flagged while 1, 2, 3 and an unparsed
number followed by 2, 3 (with sorted base names) are not. -/
theorem is_track_order_suspicious_iff :
    (∀ files : List (Option String × String),
        is_track_order_suspicious files = true
          ↔ ((2 ≤ (files.filterMap (fun f => parsedTrackNumber f.1 f.2)).length
                ∧ ¬ (files.filterMap (fun f => parsedTrackNumber f.1 f.2)).Sorted (· ≤ ·))
              ∨ (2 ≤ files.length
                  ∧ ¬ (files.map (fun f => f.2.data)).Sorted (· ≤ ·))))
      ∧ is_track_order_suspicious
          [(some ("2"), ("b.flac")), (some ("1"), ("a.flac")), (some ("3"), ("c.flac"))]
          = true
      ∧ is_track_order_suspicious
          [(some ("1"), ("a.flac")), (some ("2"), ("b.flac")), (some ("3"), ("c.flac"))]
          = false
      ∧ is_track_order_suspicious
          [(some ("x"), ("a.flac")), (some ("2"), ("b.flac")), (some ("3"), ("c.flac"))]
          = false := by
  refine ⟨?_, by decide, by decide, by decide⟩
  intro files
  unfold is_track_order_suspicious
  simp only [Bool.or_eq_true, Bool.and_eq_true, decide_eq_true_eq]
  rw [ne_insertionSort_iff, ne_insertionSort_iff]

/-- The marker substrings of the omit toggle (line 772). -/
def specialNames : List (List Char) :=
  [("drums").data, ("space").data, ("rhythm devils").data]

/-- Whether a display title contains one of the markers (line 774: the title
is lowered, the markers are already lower-case). -/
def hasMarker (t : List Char) : Bool :=
  specialNames.any (fun s => containsSub s (pyLower t))

/-- The comprehension of lines 773-774: the positions whose display title
contains a marker. -/
def omittedIndices (titles : List (List Char)) : List Nat :=
  (List.range titles.length).filter (fun i =>
    match titles[i]? with
    | some t => hasMarker t
    | none => false)

/-- The sub-runs the omit logic of lines 769-816 partitions the titles into:
with no marker found the whole run is one sub-run (the standard branch);
otherwise the tracks strictly before the first marker position and the
tracks strictly after the last marker position, everything from the first to
the last marker position inclusive dropped. -/
def subRuns (omitEnabled : Bool) (titles : List (List Char)) : List (List (List Char)) :=
  if omitEnabled then
    match omittedIndices titles with
    | [] => [titles]
    | i :: is => [titles.take i, titles.drop (((i :: is).getLast?).getD i + 1)]
  else [titles]

/-- Claim C1: with the omit toggle enabled, a run with no marker in any
display title is one single sub-run; the marked positions are exactly those
whose title contains a marker substring, they are listed in increasing
order, and when some exist the run splits into exactly two sub-runs, the
titles strictly before the first marked position and the titles strictly
after the last marked position, dropping everything in between inclusive.
On the spec's example the two sub-runs are Help on the Way and Franklin's
Tower. -/
theorem segment_split_markers :
    (∀ titles : List (List Char), (∀ t ∈ titles, hasMarker t = false) →
        subRuns true titles = [titles])
      ∧ (∀ (titles : List (List Char)) (i : Nat),
          i ∈ omittedIndices titles ↔ ∃ t, titles[i]? = some t ∧ hasMarker t = true)
      ∧ (∀ titles : List (List Char), (omittedIndices titles).Sorted (· < ·))
      ∧ (∀ (titles : List (List Char)) (i : Nat) (is : List Nat),
          omittedIndices titles = i :: is →
          subRuns true titles
            = [titles.take i, titles.drop ((((i :: is).getLast?).getD i) + 1)])
      ∧ subRuns true
          [("Help on the Way").data, ("Drums").data, ("Space").data,
            ("Franklin's Tower").data]
          = [[("Help on the Way").data], [("Franklin's Tower").data]] := by
  refine ⟨?_, ?_, ?_, ?_, by decide⟩
  · intro titles hnone
    have hempty : omittedIndices titles = [] := by
      unfold omittedIndices
      rw [List.filter_eq_nil_iff]
      intro i _
      rcases ht : titles[i]? with _ | t
      · simp
      · have hmem : t ∈ titles := by
          rcases List.getElem?_eq_some.mp ht with ⟨hlt, hget⟩
          rw [← hget]
          exact List.getElem_mem hlt
        simp [hnone t hmem]
    unfold subRuns
    rw [if_pos rfl, hempty]
  · intro titles i
    constructor
    · intro h
      have h2 := List.mem_filter.mp h
      rcases ht : titles[i]? with _ | t
      · rw [ht] at h2
        simp at h2
      · refine ⟨t, rfl, ?_⟩
        have := h2.2
        rw [ht] at this
        exact this
    · rintro ⟨t, ht, hm⟩
      apply List.mem_filter.mpr
      rcases List.getElem?_eq_some.mp ht with ⟨hlt, _⟩
      refine ⟨List.mem_range.mpr hlt, ?_⟩
      rw [ht]
      exact hm
  · intro titles
    exact (List.sorted_lt_range _).filter _
  · intro titles i is h
    unfold subRuns
    rw [if_pos rfl, h]

/-- Outcomes of the external collaborators for one merge run: whether the
codec decodes a given input path, and whether export and tag write succeed
for a given output path. -/
structure MergeEnv where
  decode : String → Bool
  exportOk : String → Bool
  tagOk : String → Bool

/-- The failures `process_files` and `export_merged_file` print. -/
inductive MergeError
  | decodeFailed (path : String)
  | exportFailed (out : String)
  | tagFailed (out : String)
deriving DecidableEq

/-- State of one `process_files` call: the output files written so far, the
success dialogs shown, the errors printed, and the uncaught exception, the
offending input path, when one propagates. -/
structure ProcResult where
  written : List String
  dialogs : List String
  errors : List MergeError
  exc : Option String
deriving DecidableEq

/-- Embeds `MainWindow.export_merged_file` (lines 848-894) as a filesystem
transition: the export try block either writes the output file or prints an
export error and returns; the separate tag try block then either tags the
file in place or prints a tag error, in both cases keeping the exported
file on disk (no branch deletes anything). Returns the new file list and
the errors printed. -/
def export_merged_file (env : MergeEnv) (out : String) (fs : List String) :
    List String × List MergeError :=
  if env.exportOk out then
    if env.tagOk out then (fs ++ [out], [])
    else (fs ++ [out], [MergeError.tagFailed out])
  else (fs, [MergeError.exportFailed out])

/-- The first path of the list the codec fails to decode. -/
def decodeFailure (env : MergeEnv) (paths : List String) : Option String :=
  paths.find? (fun p => !env.decode p)

/-- One sub-run of the omit branch (lines 783-794 and 795-813): skipped
entirely when empty; otherwise each track is decoded with no surrounding
try block, so a decode failure escapes as an exception before anything is
exported; after a successful decode loop the merged audio is exported and
the success dialog shown (`show_success_dialog` is called right after
`export_merged_file`, whatever the export outcome). -/
def processOmitSubRun (env : MergeEnv) (paths : List String) (out : String)
    (st : ProcResult) : ProcResult :=
  if paths = [] then st
  else
    match decodeFailure env paths with
    | some bad => { st with exc := some bad }
    | none =>
      let r := export_merged_file env out st.written
      { st with
        written := r.1
        errors := st.errors ++ r.2
        dialogs := st.dialogs ++ [out] }

/-- The omit branch of `process_files` with markers found (lines 775-816):
the before sub-run, then, unless an exception escaped it, the after
sub-run. -/
def process_files_omit (env : MergeEnv) (beforePaths afterPaths : List String)
    (beforeOut afterOut : String) : ProcResult :=
  let st1 := processOmitSubRun env beforePaths beforeOut ⟨[], [], [], none⟩
  match st1.exc with
  | some _ => st1
  | none => processOmitSubRun env afterPaths afterOut st1

/-- The standard branch of `process_files` (lines 819-846): the decode loop
sits in a try block, so a decode failure prints the error, resets the
progress bar and returns without exporting; otherwise the merged audio is
exported and the success dialog shown. -/
def process_files_standard (env : MergeEnv) (paths : List String) (out : String) :
    ProcResult :=
  match decodeFailure env paths with
  | some bad => ⟨[], [], [MergeError.decodeFailed bad], none⟩
  | none =>
    let r := export_merged_file env out []
    ⟨r.1, [out], r.2, none⟩

/-- Python `sep.join(parts)`. -/
def joinSep (sep : List Char) : List (List Char) → List Char
  | [] => []
  | [t] => t
  | t :: t2 :: ts => t ++ sep ++ joinSep sep (t2 :: ts)

/-- The output file name of a sub-run (lines 791 and 810): the titles joined
with dash separators, the date in parentheses, the extension. -/
def outputName (titles : List (List Char)) (dateStr ext : String) : String :=
  ⟨joinSep [' ', '-', ' '] titles ++ (' ' :: '(' :: dateStr.data) ++ ')' :: ext.data⟩

/-- Embeds the branch selection of `MainWindow.process_files` (lines
769-846) after its user-confirmation guards: with the omit toggle set and a
marker found, the two split sub-runs are processed with their computed
output names; otherwise the standard branch merges the whole list into the
proposed output name. -/
def process_files (env : MergeEnv) (omitEnabled : Bool)
    (titlesPaths : List (List Char × String)) (dateStr ext : String)
    (standardOut : String) : ProcResult :=
  let titles : List (List Char) := titlesPaths.map Prod.fst
  let paths : List String := titlesPaths.map Prod.snd
  if omitEnabled = true ∧ omittedIndices titles ≠ [] then
    let f := (omittedIndices titles).headD 0
    let l := (omittedIndices titles).getLastD 0
    process_files_omit env (paths.take f) (paths.drop (l + 1))
      (outputName (titles.take f) dateStr ext)
      (outputName (titles.drop (l + 1)) dateStr ext)
  else process_files_standard env paths standardOut

/-- Witness for claim C1: on the spec's example the marked positions are 1
and 2 and the split keeps exactly the first and last titles. -/
theorem segment_split_markers_witness :
    subRuns true
        [("Help on the Way").data, ("Drums").data, ("Space").data,
          ("Franklin's Tower").data]
      = [[("Help on the Way").data], [("Franklin's Tower").data]] := by
  rw [segment_split_markers.2.2.2.1
    [("Help on the Way").data, ("Drums").data, ("Space").data,
      ("Franklin's Tower").data] 1 [2] (by decide)]
  decide

/-- Claim C2 counterexample: a decode failure in the before sub-run is an
uncaught exception, so the after sub-run, all of whose tracks decode and
whose export would succeed, is never processed: no output file at all is
written, refuting that the processing of every other sub-run is unaffected. -/
theorem decode_failure_not_independent :
    (process_files_omit
        ⟨fun p => p != ("a.flac"), fun _ => true, fun _ => true⟩
        [("a.flac")] [("c.flac")] ("before.flac") ("after.flac")).written = []
      ∧ (process_files_omit
          ⟨fun p => p != ("a.flac"), fun _ => true, fun _ => true⟩
          [("a.flac")] [("c.flac")] ("before.flac") ("after.flac")).exc
        = some ("a.flac") := by
  decide

/-- Claim C2 (amended): a decode failure on a track of a sub-run aborts that
sub-run before anything is exported, so no output file (partial or
otherwise) is written for it, and the outputs of sub-runs completed earlier
remain intact; but the failure propagates as an uncaught exception, so
sub-runs scheduled after the failing one are not processed. An export
failure, by contrast, aborts only the failing sub-run: later sub-runs still
run and their outputs are written. In the standard single-sub-run branch a
decode failure is caught and the run ends with the error reported and
nothing exported. -/
theorem decode_failure_aborts_subrun :
    (∀ (env : MergeEnv) (bp ap : List String) (bo ao bad : String),
        decodeFailure env bp = some bad →
        process_files_omit env bp ap bo ao = ⟨[], [], [], some bad⟩)
      ∧ (∀ (env : MergeEnv) (bp ap : List String) (bo ao bad : String),
          bp ≠ [] → decodeFailure env bp = none → env.exportOk bo = true →
          env.tagOk bo = true → decodeFailure env ap = some bad →
          process_files_omit env bp ap bo ao = ⟨[bo], [bo], [], some bad⟩)
      ∧ (∀ (env : MergeEnv) (bp ap : List String) (bo ao : String),
          bp ≠ [] → ap ≠ [] → decodeFailure env bp = none →
          decodeFailure env ap = none → env.exportOk bo = false →
          env.exportOk ao = true → env.tagOk ao = true →
          process_files_omit env bp ap bo ao
            = ⟨[ao], [bo, ao], [MergeError.exportFailed bo], none⟩)
      ∧ (∀ (env : MergeEnv) (paths : List String) (out bad : String),
          decodeFailure env paths = some bad →
          process_files_standard env paths out
            = ⟨[], [], [MergeError.decodeFailed bad], none⟩) := by
  refine ⟨?_, ?_, ?_, ?_⟩
  · intro env bp ap bo ao bad h
    have hbp : bp ≠ [] := by
      intro he
      rw [he] at h
      simp [decodeFailure] at h
    unfold process_files_omit processOmitSubRun
    rw [if_neg hbp, h]
  · intro env bp ap bo ao bad hbp hdec hexp htag hdec2
    have hap : ap ≠ [] := by
      intro he
      rw [he] at hdec2
      simp [decodeFailure] at hdec2
    unfold process_files_omit processOmitSubRun
    rw [if_neg hbp, hdec]
    simp only [export_merged_file, hexp, htag, if_true]
    rw [if_neg hap, hdec2]
    rfl
  · intro env bp ap bo ao hbp hap hdec hdec2 hexpb hexpa htaga
    unfold process_files_omit processOmitSubRun
    rw [if_neg hbp, hdec]
    simp only [export_merged_file, hexpb, Bool.false_eq_true, if_false]
    rw [if_neg hap, hdec2]
    simp only [export_merged_file, hexpa, htaga, if_true]
    rfl
  · intro env paths out bad h
    unfold process_files_standard
    rw [h]

/-- Witness for the amended claim C2: with decode failing exactly on the
after sub-run's second track, the before sub-run's output survives and the
failing sub-run writes nothing. -/
theorem decode_failure_aborts_subrun_witness :
    process_files_omit
        ⟨fun p => p != ("c.flac"), fun _ => true, fun _ => true⟩
        [("a.flac")] [("b.flac"), ("c.flac"), ("d.flac")] ("before.flac")
        ("after.flac")
      = ⟨[("before.flac")], [("before.flac")], [], some ("c.flac")⟩ :=
  decode_failure_aborts_subrun.2.1
    ⟨fun p => p != ("c.flac"), fun _ => true, fun _ => true⟩
    [("a.flac")] [("b.flac"), ("c.flac"), ("d.flac")] ("before.flac")
    ("after.flac") ("c.flac") (by decide) (by decide) rfl rfl (by decide)

/-- Claim C9: for every sub-run whose export succeeds, a later tag-write
failure is non-destructive: the exported file is still among the files on
disk, nothing else changed, and the failure is reported as a printed error
rather than by deleting or invalidating the artifact. -/
theorem export_tag_failure_nondestructive (env : MergeEnv) (out : String)
    (fs : List String) (hexp : env.exportOk out = true) :
    out ∈ (export_merged_file env out fs).1
      ∧ (export_merged_file env out fs).1 = fs ++ [out]
      ∧ (env.tagOk out = false →
          (export_merged_file env out fs).2 = [MergeError.tagFailed out]) := by
  rcases ht : env.tagOk out with _ | _
  · simp [export_merged_file, hexp, ht]
  · simp [export_merged_file, hexp, ht]

/-- Witness for claim C9: export succeeds, the tag write fails, the file
stays and the failure is reported. -/
theorem export_tag_failure_nondestructive_witness :
    ("out.flac") ∈ (export_merged_file ⟨fun _ => true, fun _ => true, fun _ => false⟩
        ("out.flac") [("earlier.flac")]).1
      ∧ (export_merged_file ⟨fun _ => true, fun _ => true, fun _ => false⟩
          ("out.flac") [("earlier.flac")]).1 = [("earlier.flac")] ++ [("out.flac")]
      ∧ ((⟨fun _ => true, fun _ => true, fun _ => false⟩ : MergeEnv).tagOk ("out.flac")
            = false →
          (export_merged_file ⟨fun _ => true, fun _ => true, fun _ => false⟩
            ("out.flac") [("earlier.flac")]).2 = [MergeError.tagFailed ("out.flac")]) :=
  export_tag_failure_nondestructive ⟨fun _ => true, fun _ => true, fun _ => false⟩
    ("out.flac") [("earlier.flac")] rfl

/-- Claim C10: an empty sub-run is skipped rather than exported, writing no
output file and showing no success dialog; in particular, when omission is
enabled and every display title carries a marker, both split sub-runs are
empty and the whole run ends with nothing written, no dialog, no error and
no exception. -/
theorem empty_subrun_skipped :
    (∀ (env : MergeEnv) (out : String) (st : ProcResult),
        processOmitSubRun env [] out st = st)
      ∧ ∀ (env : MergeEnv) (titlesPaths : List (List Char × String))
          (dateStr ext standardOut : String),
          titlesPaths ≠ [] →
          (∀ t ∈ titlesPaths.map Prod.fst, hasMarker t = true) →
          process_files env true titlesPaths dateStr ext standardOut
            = ⟨[], [], [], none⟩ := by
  constructor
  · intro env out st
    unfold processOmitSubRun
    rw [if_pos rfl]
  · intro env titlesPaths dateStr ext standardOut hne hmark
    have hlen : 0 < titlesPaths.length := List.length_pos.mpr hne
    have hall : omittedIndices (titlesPaths.map Prod.fst)
        = List.range (titlesPaths.map Prod.fst).length := by
      unfold omittedIndices
      rw [List.filter_eq_self]
      intro i hi
      have hlt : i < (titlesPaths.map Prod.fst).length := List.mem_range.mp hi
      rw [List.getElem?_eq_getElem hlt]
      exact hmark _ (List.getElem_mem hlt)
    have hnil : omittedIndices (titlesPaths.map Prod.fst) ≠ [] := by
      rw [hall]
      simp only [ne_eq, List.range_eq_nil, List.length_map]
      omega
    unfold process_files
    rw [if_pos ⟨rfl, hnil⟩, hall]
    have hheadD : (List.range (titlesPaths.map Prod.fst).length).headD 0 = 0 := by
      rw [List.length_map]
      rcases hn : titlesPaths.length with _ | m
      · omega
      · rw [List.range_succ_eq_map]
        rfl
    have hlast : (List.range (titlesPaths.map Prod.fst).length).getLastD 0
        = titlesPaths.length - 1 := by
      rw [List.length_map]
      rcases hn : titlesPaths.length with _ | m
      · omega
      · rw [List.range_succ, List.getLastD_concat]
        omega
    rw [hheadD, hlast]
    have hdropP : List.drop (titlesPaths.length - 1 + 1) (List.map Prod.snd titlesPaths)
        = [] :=
      List.drop_eq_nil_of_le (by rw [List.length_map]; omega)
    simp only [List.take_zero, hdropP]
    unfold process_files_omit processOmitSubRun
    rw [if_pos rfl]
    rfl

/-- Witness for claim C10: a run whose every title is a marker title writes
nothing and shows no dialog. -/
theorem empty_subrun_skipped_witness :
    process_files ⟨fun _ => true, fun _ => true, fun _ => true⟩ true
        [(("Drums").data, ("01.flac")), (("Space").data, ("02.flac"))]
        ("1977-05-08") (".flac") ("all.flac")
      = ⟨[], [], [], none⟩ :=
  empty_subrun_skipped.2 ⟨fun _ => true, fun _ => true, fun _ => true⟩
    [(("Drums").data, ("01.flac")), (("Space").data, ("02.flac"))]
    ("1977-05-08") (".flac") ("all.flac") (by decide) (by decide)

end JamMerger
